import Mathlib

/-!
Verification development for the TraktorBox playlist converter
(`Parsers.py`).  The Python data model and the operations the claims
concern are embedded shallowly below: pure string transforms become
functions on `List Char` / `String`, the mutable parser objects become
explicit state records, exceptions become `Except`, and Python
`list.insert` becomes `pyInsert` (which, like Python, clamps an index
larger than the length to the end of the list).
-/

/-- Python `list.insert(i, x)` for a non-negative index: the element lands at
position `min i (length l)`; `take`/`drop` clamp exactly as Python does. -/
def pyInsert (l : List α) (i : Nat) (x : α) : List α :=
  l.take i ++ x :: l.drop i

theorem pyInsert_length (l : List α) (i : Nat) (x : α) :
    (pyInsert l i x).length = l.length + 1 := by
  simp [pyInsert]
  omega

theorem map_pyInsert (f : α → β) (l : List α) (i : Nat) (x : α) :
    (pyInsert l i x).map f = pyInsert (l.map f) i (f x) := by
  simp [pyInsert]

/-! ### PathCodec (token form) at character level

`Song.normal_path_to_traktor_path` is Python `path.replace("\\", "/:")`;
since the pattern is the single character `\`, the replacement maps each
character independently.  `Song.traktor_path_to_normal_path` is
`"\\".join(traktor_path.split("/:"))`; `splitTok` is the left-to-right
non-overlapping split of Python `str.split("/:")`, and `joinBack` the
join with `\`. -/

/-- Character-level body of `Song.normal_path_to_traktor_path`: every
backslash becomes the two characters `/` `:`. -/
def encodeTok : List Char → List Char
  | [] => []
  | c :: rest => (if c = '\\' then ['/', ':'] else [c]) ++ encodeTok rest

/-- Prepend a character to the first chunk of a split result. -/
def consHead (c : Char) : List (List Char) → List (List Char)
  | [] => [[c]]
  | s :: ss => (c :: s) :: ss

/-- Python `s.split("/:")` on character lists: left-to-right,
non-overlapping. -/
def splitTok : List Char → List (List Char)
  | [] => [[]]
  | [c] => [[c]]
  | c :: d :: rest =>
    if c = '/' ∧ d = ':' then [] :: splitTok rest
    else consHead c (splitTok (d :: rest))

/-- Python `"\\".join(chunks)` on character lists. -/
def joinBack : List (List Char) → List Char
  | [] => []
  | [s] => s
  | s :: ss => s ++ '\\' :: joinBack ss

/-- Split on the single character `\` (reference decomposition of a native
path into its segments). -/
def splitBS : List Char → List (List Char)
  | [] => [[]]
  | c :: rest =>
    if c = '\\' then [] :: splitBS rest else consHead c (splitBS rest)

/-- `noTok s` holds when `s` has no occurrence of the two-character
substring `/:`. -/
def noTok : List Char → Bool
  | [] => true
  | [_] => true
  | c :: d :: rest => (!(c = '/' ∧ d = ':' : Bool)) && noTok (d :: rest)

/-- `Song.normal_path_to_traktor_path` from `Parsers.py`:
`path.replace("\\", "/:")`. -/
def Song.normal_path_to_traktor_path (path : String) : String :=
  String.mk (encodeTok path.toList)

/-- `Song.traktor_path_to_normal_path` from `Parsers.py`:
`"\\".join(traktor_path.split("/:"))`. -/
def Song.traktor_path_to_normal_path (traktor_path : String) : String :=
  String.mk (joinBack (splitTok traktor_path.toList))

theorem noTok_tail (c : Char) (rest : List Char) (h : noTok (c :: rest) = true) :
    noTok rest = true := by
  cases rest with
  | nil => rfl
  | cons d r =>
    rw [noTok] at h
    simp only [Bool.and_eq_true] at h
    exact h.2

theorem consHead_ne_nil (c : Char) (l : List (List Char)) : consHead c l ≠ [] := by
  cases l <;> simp [consHead]

theorem splitBS_ne_nil (s : List Char) : splitBS s ≠ [] := by
  cases s with
  | nil => simp [splitBS]
  | cons c rest =>
    rw [splitBS]
    split
    · simp
    · exact consHead_ne_nil c (splitBS rest)

theorem splitTok_cons (c : Char) (t : List Char)
    (h : ¬(c = '/' ∧ t.head? = some ':')) :
    splitTok (c :: t) = consHead c (splitTok t) := by
  cases t with
  | nil => rfl
  | cons d r =>
    rw [splitTok, if_neg]
    intro hcd
    exact h ⟨hcd.1, by rw [hcd.2]; rfl⟩

theorem encodeTok_head (c : Char) (rest : List Char)
    (h : noTok (c :: rest) = true) (hc : c = '/') :
    ¬ ((encodeTok rest).head? = some ':') := by
  cases rest with
  | nil => simp [encodeTok]
  | cons d r =>
    rw [encodeTok]
    by_cases hd : d = '\\'
    · simp [hd]
    · simp only [if_neg hd, List.singleton_append, List.head?_cons,
        Option.some.injEq]
      subst hc
      rw [noTok] at h
      simp only [Bool.and_eq_true] at h
      have h1 := h.1
      simp at h1
      exact h1

theorem splitTok_encodeTok (s : List Char) (h : noTok s = true) :
    splitTok (encodeTok s) = splitBS s := by
  induction s with
  | nil => rfl
  | cons c rest ih =>
    have hrest := noTok_tail c rest h
    by_cases hc : c = '\\'
    · subst hc
      rw [encodeTok, if_pos rfl, splitBS, if_pos rfl]
      show splitTok ('/' :: ':' :: encodeTok rest) = [] :: splitBS rest
      rw [splitTok, if_pos ⟨rfl, rfl⟩, ih hrest]
    · rw [encodeTok, if_neg hc, List.singleton_append, splitTok_cons,
        splitBS, if_neg hc, ih hrest]
      intro hcd
      exact encodeTok_head c rest h hcd.1 hcd.2

theorem joinBack_consHead (c : Char) (l : List (List Char)) :
    joinBack (consHead c l) = c :: joinBack l := by
  cases l with
  | nil => rfl
  | cons s ss =>
    cases ss with
    | nil => rfl
    | cons s2 ss2 => simp [consHead, joinBack]

theorem joinBack_splitBS (s : List Char) : joinBack (splitBS s) = s := by
  induction s with
  | nil => rfl
  | cons c rest ih =>
    by_cases hc : c = '\\'
    · subst hc
      rw [splitBS, if_pos rfl]
      cases hsp : splitBS rest with
      | nil => exact absurd hsp (splitBS_ne_nil rest)
      | cons x xs =>
        show ([] : List Char) ++ '\\' :: joinBack (x :: xs) = '\\' :: rest
        rw [List.nil_append, ← hsp, ih]
    · rw [splitBS, if_neg hc, joinBack_consHead, ih]

theorem decode_encode_chars (s : List Char) (h : noTok s = true) :
    joinBack (splitTok (encodeTok s)) = s := by
  rw [splitTok_encodeTok s h, joinBack_splitBS]

/-- C8: for every native path whose text contains no occurrence of the
literal substring `/:`, decoding the token encoding returns the path:
`traktor_path_to_normal_path (normal_path_to_traktor_path p) = p`, where
encoding replaces every backslash with `/:` and decoding splits on `/:`
and rejoins with backslash. -/
theorem c8_token_roundtrip (p : String) (h : noTok p.toList = true) :
    Song.traktor_path_to_normal_path (Song.normal_path_to_traktor_path p) = p := by
  unfold Song.traktor_path_to_normal_path Song.normal_path_to_traktor_path
  show String.mk (joinBack (splitTok (encodeTok p.toList))) = p
  rw [decode_encode_chars p.toList h]
  cases p
  rfl

theorem c8_token_roundtrip_witness :
    noTok ("C:\\Users\\X\\t.mp3").toList = true ∧
    Song.traktor_path_to_normal_path
      (Song.normal_path_to_traktor_path "C:\\Users\\X\\t.mp3") = "C:\\Users\\X\\t.mp3" :=
  ⟨by decide, c8_token_roundtrip "C:\\Users\\X\\t.mp3" (by decide)⟩

/-! ### Data model

`xml.etree.ElementTree` elements become the `Xml` inductive (tag,
attributes in insertion order, children).  Text/tail strings of elements
(`"\n"` separators in the NML output) are omitted: no claim concerns
them.  `RecordSong` keeps the fields the claims touch (`record_path` and
`file_name` are derived at construction and never read by the operations
under study); `TraktorSong.path` is the stored normalized path computed
at construction from the token path.  `Song` is the runtime tagged union
that Python distinguishes with `isinstance(song, TraktorSong)`. -/

inductive Xml where
  | elem (tag : String) (attrs : List (String × String)) (children : List Xml)

def Xml.tag : Xml → String
  | .elem t _ _ => t

def Xml.attrs : Xml → List (String × String)
  | .elem _ a _ => a

def Xml.children : Xml → List Xml
  | .elem _ _ c => c

/-- Read an attribute of an element (Python `element.attrib[k]`, as an
`Option` so a missing key is visible). -/
def Xml.getAttr (x : Xml) (k : String) : Option String :=
  (x.attrs.find? (fun pr => pr.1 == k)).map (fun pr => pr.2)

structure RecordSong where
  id : String
  name : String
  path : String
  size : Nat
deriving DecidableEq

structure TraktorSong where
  name : String
  traktor_path : String
  path : String
deriving DecidableEq

inductive Song where
  | record (s : RecordSong)
  | traktor (s : TraktorSong)
deriving DecidableEq

/-- The `path` attribute both song variants carry. -/
def Song.path : Song → String
  | .record s => s.path
  | .traktor s => s.path

structure Playlist where
  name : String
  songs : List Song
deriving DecidableEq

/-- `Playlist.nb_entries`, always `len(self.songs)`. -/
def Playlist.nb_entries (p : Playlist) : Nat :=
  p.songs.length

/-! ### Parser state

A parser object after construction: the song list, the retained
songs-section fragment, the playlist list, and the child list of the
retained playlists-section fragment (`playlists_tree`; inserting at
index `i` there is `self.playlists_tree.insert(i, node)`). -/

structure TraktorState where
  songs : List TraktorSong
  songs_tree : Xml
  playlists : List Playlist
  playlists_tree : List Xml

structure RecordBoxState where
  songs : List RecordSong
  songs_tree : Xml
  playlists : List Playlist
  playlists_tree : List Xml

/-! ### TraktorParser.add_playlist_to_tree -/

/-- Name test used to find the reserved trailing playlists. -/
def reserved_name (s : String) : Bool :=
  s == "_LOOPS" || s == "_RECORDINGS"

/-- `TraktorParser.add_traktor_track_to_playlist`: one
`ENTRY`/`PRIMARYKEY` pair whose `KEY` is the token path of the song. -/
def traktor_track_entry (song : Song) : Xml :=
  Xml.elem "ENTRY" []
    [Xml.elem "PRIMARYKEY"
      [("TYPE", "TRACK"), ("KEY", Song.normal_path_to_traktor_path song.path)] []]

/-- The playlist `NODE` built by `TraktorParser.add_playlist_to_tree`
(lines 256-266).  `uuid` is the value of
`str(uuid.uuid1()).replace("-", "")`, passed in as a parameter because it
is freshly generated at each call. -/
def traktor_playlist_node (playlist : Playlist) (uuid : String) : Xml :=
  Xml.elem "NODE" [("TYPE", "PLAYLIST"), ("NAME", playlist.name)]
    [Xml.elem "PLAYLIST"
      [("ENTRIES", toString playlist.nb_entries), ("TYPE", "LIST"), ("UUID", uuid)]
      (playlist.songs.map traktor_track_entry)]

/-- The `max_index` computed by `TraktorParser.add_playlist_to_tree`
(lines 268-280).  The Python
`min([self.playlists.index(p) for p in ending_playlists])` is the
smallest position holding a reserved-named playlist, i.e.
`findIdx reserved_name` (each `index` call returns the first position of
that object, which carries a reserved name, so the minimum over them is
the first reserved position); when no reserved playlist exists the code
counts the children of the tree fragment. -/
def traktor_max_index (st : TraktorState) : Nat :=
  if st.playlists.any (fun q => reserved_name q.name) then
    st.playlists.findIdx (fun q => reserved_name q.name)
  else
    st.playlists_tree.length

/-- The insertion index of `TraktorParser.add_playlist_to_tree` (lines
282-285): default to `max_index`, clamp an explicit larger index down to
it.  The explicit index, when given, is a non-negative Python int. -/
def traktor_idx (st : TraktorState) (index : Option Nat) : Nat :=
  match index with
  | none => traktor_max_index st
  | some i => if traktor_max_index st < i then traktor_max_index st else i

/-- `TraktorParser.add_playlist_to_tree` (lines 255-290): build the node,
insert it into the tree fragment and the playlist into the in-memory
sequence at the same computed index. -/
def TraktorParser.add_playlist_to_tree (st : TraktorState) (playlist : Playlist)
    (index : Option Nat) (uuid : String) : TraktorState :=
  { st with
      playlists_tree :=
        pyInsert st.playlists_tree (traktor_idx st index)
          (traktor_playlist_node playlist uuid),
      playlists := pyInsert st.playlists (traktor_idx st index) playlist }

/-! ### Cross-format resolution and RecordBoxParser.add_playlist_to_tree -/

/-- `Exporter.convert_traktor_song_to_recordbox` (lines 520-532): filter
the RecordBox collection's songs by path equality; return the first
result, or raise when there is none. -/
def Exporter.convert_traktor_song_to_recordbox (traktor_song : TraktorSong)
    (recordbox_col : RecordBoxState) : Except String RecordSong :=
  match recordbox_col.songs.filter (fun x => x.path == traktor_song.path) with
  | [] => .error ("Traktor Song " ++ traktor_song.name ++
      " doesn't exist in RecordBox Collection. Please add it to collection first")
  | r :: _ => .ok r

/-- One `TRACK` reference node (`<TRACK Key="..."/>`). -/
def recordbox_track_node (key : String) : Xml :=
  Xml.elem "TRACK" [("Key", key)] []

/-- The per-song loop of `RecordBoxParser.add_playlist_to_tree` (lines
445-452): Traktor songs are resolved first (an unresolved song raises,
aborting the call before the node is attached); the track node carries
the RecordBox id. -/
def recordbox_track_nodes : List Song → RecordBoxState → Except String (List Xml)
  | [], _ => .ok []
  | s :: rest, st =>
    match s with
    | .traktor ts =>
      match Exporter.convert_traktor_song_to_recordbox ts st with
      | .error e => .error e
      | .ok r =>
        match recordbox_track_nodes rest st with
        | .error e => .error e
        | .ok l => .ok (recordbox_track_node r.id :: l)
    | .record r =>
      match recordbox_track_nodes rest st with
      | .error e => .error e
      | .ok l => .ok (recordbox_track_node r.id :: l)

/-- The playlist `NODE` built by `RecordBoxParser.add_playlist_to_tree`
(lines 436-442): its attributes are set before the song loop, the track
nodes become its children. -/
def recordbox_playlist_node (playlist : Playlist) (tracks : List Xml) : Xml :=
  Xml.elem "NODE"
    [("Name", playlist.name), ("Type", "1"), ("KeyType", "0"),
     ("Entries", toString playlist.nb_entries)]
    tracks

/-- The insertion index of `RecordBoxParser.add_playlist_to_tree` (lines
455-457): default to the current child count of the tree fragment; an
explicit index is used as given (Python `list.insert` still clamps it to
the list length). -/
def recordbox_idx (st : RecordBoxState) (index : Option Nat) : Nat :=
  match index with
  | none => st.playlists_tree.length
  | some i => i

/-- `RecordBoxParser.add_playlist_to_tree` (lines 435-462).  The node is
inserted into the tree fragment and the playlist into the in-memory
sequence only after every song has produced a track node, so a
resolution failure leaves the state unchanged. -/
def RecordBoxParser.add_playlist_to_tree (st : RecordBoxState) (playlist : Playlist)
    (index : Option Nat) : Except String RecordBoxState :=
  (recordbox_track_nodes playlist.songs st).map (fun tracks =>
    { st with
        playlists_tree :=
          pyInsert st.playlists_tree (recordbox_idx st index)
            (recordbox_playlist_node playlist tracks),
        playlists := pyInsert st.playlists (recordbox_idx st index) playlist })

/-- `Parser.add_playlists_to_tree` (lines 163-165) as used on a
RecordBox parser: add each playlist with `index=None`; an exception
aborts the loop, keeping the mutations of the calls that already
succeeded. -/
def Parser.add_playlists_to_tree :
    RecordBoxState → List Playlist → RecordBoxState × Option String
  | st, [] => (st, none)
  | st, p :: rest =>
    match RecordBoxParser.add_playlist_to_tree st p none with
    | .error e => (st, some e)
    | .ok st' => Parser.add_playlists_to_tree st' rest

/-- The playlists tree fragment visible after a call on a parser whose
state was `st`: on an exception the Python object keeps its fragment. -/
def rb_tree_after (st : RecordBoxState) : Except String RecordBoxState → List Xml
  | .ok st' => st'.playlists_tree
  | .error _ => st.playlists_tree

/-! ### Parser.save_file -/

/-- A file system: path to content. -/
def FileSys := String → Option String

/-- Whole-file write. -/
def fs_write (fs : FileSys) (p c : String) : FileSys :=
  fun q => if q = p then some c else fs q

/-- `Parser.save_file` (lines 167-178).  `self_file_path` is the path the
parser was constructed from, `doc` the serialization `_save_tree` writes.
The backup step is `shutil.copy(self.file_path, self.file_path + ".bak")`
(raising when the source file is absent), performed after the
destination defaulting and before the write. -/
def Parser.save_file (self_file_path : String) (doc : String) (fs : FileSys)
    (file_path : Option String) (backup : Bool) : Except String FileSys :=
  let fp :=
    match file_path with
    | none => self_file_path
    | some p => p
  if backup then
    match fs self_file_path with
    | none => .error "shutil.copy: source file not found"
    | some c => .ok (fs_write (fs_write fs (self_file_path ++ ".bak") c) fp doc)
  else
    .ok (fs_write fs fp doc)

/-! ### Helper lemmas about the embedded operations -/

theorem traktor_node_name (p : Playlist) (u : String) :
    (traktor_playlist_node p u).getAttr "NAME" = some p.name := by
  simp [traktor_playlist_node, Xml.getAttr, Xml.attrs, List.find?]

theorem recordbox_node_name (p : Playlist) (tracks : List Xml) :
    (recordbox_playlist_node p tracks).getAttr "Name" = some p.name := by
  simp [recordbox_playlist_node, Xml.getAttr, Xml.attrs, List.find?]

/-- Components of a Traktor insertion. -/
theorem traktor_add_components (st : TraktorState) (p : Playlist)
    (index : Option Nat) (u : String) :
    (TraktorParser.add_playlist_to_tree st p index u).songs = st.songs ∧
    (TraktorParser.add_playlist_to_tree st p index u).songs_tree = st.songs_tree ∧
    (TraktorParser.add_playlist_to_tree st p index u).playlists =
      pyInsert st.playlists (traktor_idx st index) p ∧
    (TraktorParser.add_playlist_to_tree st p index u).playlists_tree =
      pyInsert st.playlists_tree (traktor_idx st index)
        (traktor_playlist_node p u) :=
  ⟨rfl, rfl, rfl, rfl⟩

/-- Inversion of a successful RecordBox insertion. -/
theorem rb_add_ok_iff (st : RecordBoxState) (p : Playlist) (index : Option Nat)
    (st' : RecordBoxState) :
    RecordBoxParser.add_playlist_to_tree st p index = .ok st' ↔
      ∃ tracks, recordbox_track_nodes p.songs st = .ok tracks ∧
        st' = { st with
                  playlists_tree :=
                    pyInsert st.playlists_tree (recordbox_idx st index)
                      (recordbox_playlist_node p tracks),
                  playlists := pyInsert st.playlists (recordbox_idx st index) p } := by
  unfold RecordBoxParser.add_playlist_to_tree
  cases h : recordbox_track_nodes p.songs st with
  | error e => simp [Except.map, h]
  | ok tracks =>
    simp only [Except.map, h]
    constructor
    · intro hok
      exact ⟨tracks, rfl, by injection hok with h1; exact h1.symm⟩
    · intro ⟨tr, htr, hst⟩
      injection htr with h1
      subst h1
      rw [hst]

/-- A failing RecordBox insertion is exactly a failing track build. -/
theorem rb_add_error_iff (st : RecordBoxState) (p : Playlist) (index : Option Nat)
    (e : String) :
    RecordBoxParser.add_playlist_to_tree st p index = .error e ↔
      recordbox_track_nodes p.songs st = .error e := by
  unfold RecordBoxParser.add_playlist_to_tree
  cases h : recordbox_track_nodes p.songs st with
  | error e' => simp [Except.map]
  | ok tracks => simp [Except.map]

/-- Head of a filter: the first kept element, everything before it
rejected. -/
theorem filter_head {α : Type} (pred : α → Bool) (l : List α) (r : α)
    (rest : List α) (h : l.filter pred = r :: rest) :
    pred r = true ∧ ∃ l1 l2, l = l1 ++ r :: l2 ∧ ∀ x ∈ l1, pred x = false := by
  induction l with
  | nil => simp at h
  | cons a t ih =>
    by_cases ha : pred a = true
    · rw [List.filter_cons_of_pos ha] at h
      injection h with h1 h2
      subst h1
      exact ⟨ha, [], t, rfl, by simp⟩
    · rw [List.filter_cons_of_neg (by simpa using ha)] at h
      obtain ⟨hr, l1, l2, hl, hmin⟩ := ih h
      refine ⟨hr, a :: l1, l2, by rw [hl]; rfl, ?_⟩
      intro x hx
      rcases List.mem_cons.mp hx with rfl | hx
      · simpa using ha
      · exact hmin x hx

theorem take_min_self {α : Type} (l : List α) (i : Nat) :
    l.take i = l.take (min i l.length) := by
  rcases Nat.le_total i l.length with h | h
  · rw [Nat.min_eq_left h]
  · rw [Nat.min_eq_right h, List.take_length, List.take_of_length_le h]

theorem drop_min_self {α : Type} (l : List α) (i : Nat) :
    l.drop i = l.drop (min i l.length) := by
  rcases Nat.le_total i l.length with h | h
  · rw [Nat.min_eq_left h]
  · rw [Nat.min_eq_right h, List.drop_length, List.drop_eq_nil_of_le h]

theorem pyInsert_eq_min {α : Type} (l : List α) (i : Nat) (x : α) :
    pyInsert l i x =
      l.take (min i l.length) ++ x :: l.drop (min i l.length) := by
  rw [pyInsert, ← take_min_self, ← drop_min_self]

theorem pyInsert_at_length {α : Type} (l : List α) (x : α) :
    pyInsert l l.length x = l ++ [x] := by
  rw [pyInsert, List.take_length, List.drop_length]

/-- The successful result of cross-format resolution is the first
path-equal song of the collection. -/
theorem convert_ok_iff (ts : TraktorSong) (st : RecordBoxState) (r : RecordSong) :
    Exporter.convert_traktor_song_to_recordbox ts st = .ok r ↔
      r.path = ts.path ∧ ∃ l1 l2, st.songs = l1 ++ r :: l2 ∧
        ∀ x ∈ l1, x.path ≠ ts.path := by
  unfold Exporter.convert_traktor_song_to_recordbox
  cases hf : st.songs.filter (fun x => x.path == ts.path) with
  | nil =>
    constructor
    · intro h
      exact absurd h (by simp)
    · rintro ⟨hp, l1, l2, hl, hmin⟩
      exfalso
      have hr : r ∈ st.songs.filter (fun x => x.path == ts.path) := by
        rw [List.mem_filter]
        exact ⟨by rw [hl]; simp, by simp [hp]⟩
      rw [hf] at hr
      simp at hr
  | cons r0 rest =>
    obtain ⟨hr0, l1, l2, hl, hmin⟩ := filter_head _ _ _ _ hf
    constructor
    · intro h
      injection h with h1
      subst h1
      refine ⟨by simpa using hr0, l1, l2, hl, ?_⟩
      intro x hx heq
      have := hmin x hx
      simp [heq] at this
    · rintro ⟨hp, m1, m2, hm, hmmin⟩
      have hfil : st.songs.filter (fun x => x.path == ts.path) =
          r :: m2.filter (fun x => x.path == ts.path) := by
        rw [hm, List.filter_append]
        have h1 : m1.filter (fun x => x.path == ts.path) = [] := by
          rw [List.filter_eq_nil_iff]
          intro a ha
          simpa using hmmin a ha
        rw [h1, List.filter_cons_of_pos (by simp [hp])]
        simp
      rw [hfil] at hf
      injection hf with h1 _
      rw [h1]

/-- Resolution fails exactly when no song of the collection carries the
path. -/
theorem convert_error_iff (ts : TraktorSong) (st : RecordBoxState) :
    (∃ e, Exporter.convert_traktor_song_to_recordbox ts st = .error e) ↔
      ∀ x ∈ st.songs, x.path ≠ ts.path := by
  unfold Exporter.convert_traktor_song_to_recordbox
  cases hf : st.songs.filter (fun x => x.path == ts.path) with
  | nil =>
    have hall := List.filter_eq_nil_iff.mp hf
    constructor
    · intro _
      intro x hx heq
      exact hall x hx (by simp [heq])
    · intro _
      exact ⟨_, rfl⟩
  | cons r0 rest =>
    obtain ⟨hr0, l1, l2, hl, _⟩ := filter_head _ _ _ _ hf
    constructor
    · rintro ⟨e, he⟩
      exact absurd he (by simp)
    · intro hall
      exfalso
      have : r0 ∈ st.songs := by rw [hl]; simp
      exact hall r0 this (by simpa using hr0)

theorem convert_ok_mem (ts : TraktorSong) (st : RecordBoxState) (r : RecordSong)
    (h : Exporter.convert_traktor_song_to_recordbox ts st = .ok r) :
    r ∈ st.songs ∧ r.path = ts.path := by
  obtain ⟨hp, l1, l2, hl, _⟩ := (convert_ok_iff ts st r).mp h
  exact ⟨by rw [hl]; simp, hp⟩

/-- A successful track build certifies that every Traktor-variant song of
the list has a path-equal counterpart in the collection. -/
theorem track_nodes_resolves (st : RecordBoxState) :
    ∀ (songs : List Song) (tracks : List Xml),
      recordbox_track_nodes songs st = .ok tracks →
      ∀ s ∈ songs, ∀ ts, s = Song.traktor ts →
        ∃ r ∈ st.songs, r.path = ts.path := by
  intro songs
  induction songs with
  | nil =>
    intro tracks _ s hs
    simp at hs
  | cons a rest ih =>
    intro tracks h s hs ts hsts
    rcases List.mem_cons.mp hs with rfl | hs'
    · subst hsts
      rw [recordbox_track_nodes] at h
      cases hc : Exporter.convert_traktor_song_to_recordbox ts st with
      | error e => rw [hc] at h; simp at h
      | ok r =>
        obtain ⟨hmem, hpath⟩ := convert_ok_mem ts st r hc
        exact ⟨r, hmem, hpath⟩
    · cases a with
      | traktor ts2 =>
        rw [recordbox_track_nodes] at h
        cases hc : Exporter.convert_traktor_song_to_recordbox ts2 st with
        | error e => rw [hc] at h; simp at h
        | ok r =>
          rw [hc] at h
          cases hrec : recordbox_track_nodes rest st with
          | error e => rw [hrec] at h; simp at h
          | ok l => exact ih l hrec s hs' ts hsts
      | record r =>
        rw [recordbox_track_nodes] at h
        cases hrec : recordbox_track_nodes rest st with
        | error e => rw [hrec] at h; simp at h
        | ok l => exact ih l hrec s hs' ts hsts

/-- An unresolvable Traktor song anywhere in the list makes the track
build raise. -/
theorem track_nodes_error_of_unresolvable (st : RecordBoxState) :
    ∀ (songs : List Song),
      (∃ s ∈ songs, ∃ ts, s = Song.traktor ts ∧
        ∀ r ∈ st.songs, r.path ≠ ts.path) →
      ∃ e, recordbox_track_nodes songs st = .error e := by
  intro songs
  induction songs with
  | nil =>
    rintro ⟨s, hs, -⟩
    simp at hs
  | cons a rest ih =>
    rintro ⟨s, hs, ts, hsts, hall⟩
    rcases List.mem_cons.mp hs with rfl | hs'
    · subst hsts
      obtain ⟨e, he⟩ := (convert_error_iff ts st).mpr hall
      exact ⟨e, by rw [recordbox_track_nodes, he]⟩
    · obtain ⟨e, he⟩ := ih ⟨s, hs', ts, hsts, hall⟩
      cases a with
      | traktor ts2 =>
        cases hc : Exporter.convert_traktor_song_to_recordbox ts2 st with
        | error e2 => exact ⟨e2, by rw [recordbox_track_nodes, hc]⟩
        | ok r => exact ⟨e, by rw [recordbox_track_nodes, hc, he]⟩
      | record r => exact ⟨e, by rw [recordbox_track_nodes, he]⟩

/-! ### Claim-side definitions and concrete example states -/

/-- Lock-step invariant for a Traktor parser: the fragment and the
in-memory sequence have the same length and the i-th child's `NAME`
attribute is the i-th playlist's name (stated as a map equality, which
is exactly length agreement plus pointwise name agreement). -/
def lockstepT (st : TraktorState) : Prop :=
  st.playlists_tree.map (fun x => x.getAttr "NAME") =
    st.playlists.map (fun q => some q.name)

/-- Lock-step invariant for a RecordBox parser (attribute key `Name`). -/
def lockstepR (st : RecordBoxState) : Prop :=
  st.playlists_tree.map (fun x => x.getAttr "Name") =
    st.playlists.map (fun q => some q.name)

/-- The ceiling in the words of the claim: the smallest index of a
playlist named `_LOOPS` or `_RECORDINGS`, or the current total count of
playlists when neither exists. -/
def c1ceiling (st : TraktorState) : Nat :=
  if st.playlists.any (fun q => reserved_name q.name) then
    st.playlists.findIdx (fun q => reserved_name q.name)
  else
    st.playlists.length

/-- The insertion position in the words of the claim: the ceiling when no
index is supplied, an explicit index clamped down to the ceiling. -/
def c1pos (st : TraktorState) (index : Option Nat) : Nat :=
  match index with
  | none => c1ceiling st
  | some i => min i (c1ceiling st)

def exCollectionTree : Xml :=
  Xml.elem "COLLECTION" [] []

def exRS : RecordSong :=
  { id := "42", name := "A", path := "C:\\M\\a.mp3", size := 3 }

def exTS : TraktorSong :=
  { name := "T", traktor_path := "C:/:M/:t.mp3", path := "C:\\M\\t.mp3" }

def exTSa : TraktorSong :=
  { name := "TA", traktor_path := "C:/:M/:a.mp3", path := "C:\\M\\a.mp3" }

def exLoops : Playlist :=
  { name := "_LOOPS", songs := [] }

def exLoopsNode : Xml :=
  Xml.elem "NODE" [("TYPE", "PLAYLIST"), ("NAME", "_LOOPS")] []

def exPl : Playlist :=
  { name := "House", songs := [] }

def exHouse : Playlist :=
  { name := "House", songs := [Song.record exRS] }

def stT1 : TraktorState :=
  { songs := [], songs_tree := exCollectionTree,
    playlists := [exLoops], playlists_tree := [exLoopsNode] }

def stT0 : TraktorState :=
  { songs := [], songs_tree := exCollectionTree,
    playlists := [], playlists_tree := [] }

def stR1 : RecordBoxState :=
  { songs := [exRS], songs_tree := exCollectionTree,
    playlists := [], playlists_tree := [] }

def stR1' : RecordBoxState :=
  { songs := [exRS], songs_tree := exCollectionTree,
    playlists := [exHouse],
    playlists_tree := [recordbox_playlist_node exHouse [recordbox_track_node "42"]] }

/-! ### The claims -/

/-- C1: for a Traktor parser in lock-step lengths, `add_playlist_to_tree`
inserts the new node and the playlist object at the ceiling (the
smallest `_LOOPS`/`_RECORDINGS` index, else the playlist count) when no
index is supplied; an explicit index above the ceiling is clamped down
to it and an explicit index at or below the ceiling is used unchanged —
i.e. the insertion position is `c1pos`. -/
theorem c1_traktor_insert_at_ceiling (st : TraktorState)
    (h : st.playlists.length = st.playlists_tree.length)
    (p : Playlist) (index : Option Nat) (uuid : String) :
    (TraktorParser.add_playlist_to_tree st p index uuid).playlists =
      st.playlists.take (c1pos st index) ++
        p :: st.playlists.drop (c1pos st index) ∧
    (TraktorParser.add_playlist_to_tree st p index uuid).playlists_tree =
      st.playlists_tree.take (c1pos st index) ++
        traktor_playlist_node p uuid ::
          st.playlists_tree.drop (c1pos st index) := by
  have hceil : traktor_max_index st = c1ceiling st := by
    unfold traktor_max_index c1ceiling
    split
    · rfl
    · exact h.symm
  have hpos : traktor_idx st index = c1pos st index := by
    cases index with
    | none => exact hceil
    | some i =>
      show (if traktor_max_index st < i then traktor_max_index st else i) =
        min i (c1ceiling st)
      rw [hceil]
      rcases Nat.lt_or_ge (c1ceiling st) i with hlt | hge
      · rw [if_pos hlt, Nat.min_eq_right (Nat.le_of_lt hlt)]
      · rw [if_neg (Nat.not_lt.mpr hge), Nat.min_eq_left hge]
  constructor
  · show pyInsert st.playlists (traktor_idx st index) p = _
    rw [hpos]
    rfl
  · show pyInsert st.playlists_tree (traktor_idx st index)
      (traktor_playlist_node p uuid) = _
    rw [hpos]
    rfl

theorem c1_traktor_insert_at_ceiling_witness :
    stT1.playlists.length = stT1.playlists_tree.length ∧
    ((TraktorParser.add_playlist_to_tree stT1 exPl (some 5) "u").playlists =
      stT1.playlists.take (c1pos stT1 (some 5)) ++
        exPl :: stT1.playlists.drop (c1pos stT1 (some 5)) ∧
     (TraktorParser.add_playlist_to_tree stT1 exPl (some 5) "u").playlists_tree =
      stT1.playlists_tree.take (c1pos stT1 (some 5)) ++
        traktor_playlist_node exPl "u" ::
          stT1.playlists_tree.drop (c1pos stT1 (some 5))) :=
  ⟨rfl, c1_traktor_insert_at_ceiling stT1 rfl exPl (some 5) "u"⟩

/-- C2: the lock-step invariant (same length, i-th child node name equals
i-th playlist name) is preserved by `add_playlist_to_tree` on either
parser — unconditionally on a Traktor parser, and by every successful
call on a RecordBox parser. -/
theorem c2_lockstep_preserved (stT : TraktorState) (p : Playlist)
    (oi : Option Nat) (u : String) (stR : RecordBoxState) (q : Playlist)
    (oj : Option Nat) (stR' : RecordBoxState)
    (hT : lockstepT stT) (hR : lockstepR stR)
    (hadd : RecordBoxParser.add_playlist_to_tree stR q oj = .ok stR') :
    lockstepT (TraktorParser.add_playlist_to_tree stT p oi u) ∧
    lockstepR stR' := by
  constructor
  · unfold lockstepT at hT ⊢
    show (pyInsert stT.playlists_tree (traktor_idx stT oi)
        (traktor_playlist_node p u)).map (fun x => x.getAttr "NAME") =
      (pyInsert stT.playlists (traktor_idx stT oi) p).map (fun q => some q.name)
    rw [map_pyInsert, map_pyInsert, hT]
    show pyInsert _ _ ((traktor_playlist_node p u).getAttr "NAME") = _
    rw [traktor_node_name]
  · obtain ⟨tracks, htr, hst⟩ := (rb_add_ok_iff stR q oj stR').mp hadd
    subst hst
    unfold lockstepR at hR ⊢
    show (pyInsert stR.playlists_tree (recordbox_idx stR oj)
        (recordbox_playlist_node q tracks)).map (fun x => x.getAttr "Name") =
      (pyInsert stR.playlists (recordbox_idx stR oj) q).map (fun q => some q.name)
    rw [map_pyInsert, map_pyInsert, hR]
    show pyInsert _ _ ((recordbox_playlist_node q tracks).getAttr "Name") = _
    rw [recordbox_node_name]

theorem c2_lockstep_preserved_witness :
    lockstepT stT1 ∧ lockstepR stR1 ∧
    RecordBoxParser.add_playlist_to_tree stR1 exHouse none = .ok stR1' ∧
    (lockstepT (TraktorParser.add_playlist_to_tree stT1 exPl none "u") ∧
     lockstepR stR1') :=
  ⟨rfl, rfl, rfl,
    c2_lockstep_preserved stT1 exPl none "u" stR1 exHouse none stR1'
      rfl rfl rfl⟩

/-- C4: cross-format resolution returns the first song of the RecordBox
collection whose normalized path equals the Traktor song's normalized
path, and it raises if and only if no song of the collection carries
that path. -/
theorem c4_convert_first_match (ts : TraktorSong) (st : RecordBoxState) :
    (∀ r : RecordSong,
      Exporter.convert_traktor_song_to_recordbox ts st = .ok r ↔
        r.path = ts.path ∧ ∃ l1 l2, st.songs = l1 ++ r :: l2 ∧
          ∀ x ∈ l1, x.path ≠ ts.path) ∧
    ((∃ e, Exporter.convert_traktor_song_to_recordbox ts st = .error e) ↔
      ∀ x ∈ st.songs, x.path ≠ ts.path) :=
  ⟨fun r => convert_ok_iff ts st r, convert_error_iff ts st⟩

theorem c4_convert_first_match_witness :
    Exporter.convert_traktor_song_to_recordbox exTSa stR1 = .ok exRS :=
  ((c4_convert_first_match exTSa stR1).1 exRS).mpr
    ⟨rfl, [], [], rfl, by simp⟩

def stC3 : RecordBoxState :=
  { songs := [exRS], songs_tree := exCollectionTree,
    playlists := [], playlists_tree := [] }

def plC3 : Playlist :=
  { name := "P", songs := [Song.traktor exTSa, Song.traktor exTS] }

/-- C3 counterexample: on a playlist whose first Traktor song resolves
and whose second has no path match, the call fails — but the playlists
tree fragment is unchanged (still empty): no partially-built playlist
node is attached, because attachment happens only after every track
resolves. -/
theorem c3_counterexample :
    RecordBoxParser.add_playlist_to_tree stC3 plC3 none =
      .error ("Traktor Song T doesn't exist in RecordBox Collection. " ++
        "Please add it to collection first") ∧
    rb_tree_after stC3 (RecordBoxParser.add_playlist_to_tree stC3 plC3 none) =
      ([] : List Xml) :=
  ⟨rfl, rfl⟩

/-- C3 amended: if a playlist contains a Traktor song with no path match
in the RecordBox collection, `add_playlist_to_tree` fails for that
playlist and the playlists tree fragment is left unchanged — the
partially-built node is never attached. -/
theorem c3_failure_leaves_tree_unchanged (st : RecordBoxState) (p : Playlist)
    (index : Option Nat)
    (h : ∃ s ∈ p.songs, ∃ ts, s = Song.traktor ts ∧
      ∀ r ∈ st.songs, r.path ≠ ts.path) :
    (∃ e, RecordBoxParser.add_playlist_to_tree st p index = .error e) ∧
    rb_tree_after st (RecordBoxParser.add_playlist_to_tree st p index) =
      st.playlists_tree := by
  obtain ⟨e, he⟩ := track_nodes_error_of_unresolvable st p.songs h
  have hadd : RecordBoxParser.add_playlist_to_tree st p index = .error e :=
    (rb_add_error_iff st p index e).mpr he
  refine ⟨⟨e, hadd⟩, ?_⟩
  rw [hadd]
  rfl

theorem c3_failure_leaves_tree_unchanged_witness :
    (∃ s ∈ plC3.songs, ∃ ts, s = Song.traktor ts ∧
      ∀ r ∈ stC3.songs, r.path ≠ ts.path) ∧
    ((∃ e, RecordBoxParser.add_playlist_to_tree stC3 plC3 none = .error e) ∧
     rb_tree_after stC3 (RecordBoxParser.add_playlist_to_tree stC3 plC3 none) =
       stC3.playlists_tree) := by
  have h : ∃ s ∈ plC3.songs, ∃ ts, s = Song.traktor ts ∧
      ∀ r ∈ stC3.songs, r.path ≠ ts.path := by
    refine ⟨Song.traktor exTS, by decide, exTS, rfl, ?_⟩
    intro r hr
    have hre : r = exRS := by simpa [stC3] using hr
    subst hre
    decide
  exact ⟨h, c3_failure_leaves_tree_unchanged stC3 plC3 none h⟩

/-- Appending a sequence of playlists with `index=None` extends both the
in-memory sequence and the tree fragment at the end, in order. -/
theorem add_playlists_spec (ps : List Playlist) :
    ∀ (st st' : RecordBoxState),
      st.playlists.length = st.playlists_tree.length →
      Parser.add_playlists_to_tree st ps = (st', none) →
      st'.playlists = st.playlists ++ ps ∧
      ∃ nds, st'.playlists_tree = st.playlists_tree ++ nds ∧
        nds.map (fun nd => nd.getAttr "Name") =
          ps.map (fun q => some q.name) := by
  induction ps with
  | nil =>
    intro st st' _ h
    rw [Parser.add_playlists_to_tree] at h
    injection h with hst _
    subst hst
    exact ⟨by simp, [], by simp, by simp⟩
  | cons p rest ih =>
    intro st st' hlen h
    rw [Parser.add_playlists_to_tree] at h
    cases hadd : RecordBoxParser.add_playlist_to_tree st p none with
    | error e => rw [hadd] at h; simp at h
    | ok st1 =>
      rw [hadd] at h
      obtain ⟨tracks, htr, hst1⟩ := (rb_add_ok_iff st p none st1).mp hadd
      have hlen1 : st1.playlists.length = st1.playlists_tree.length := by
        rw [hst1]
        show (pyInsert st.playlists _ p).length =
          (pyInsert st.playlists_tree _ _).length
        rw [pyInsert_length, pyInsert_length, hlen]
      obtain ⟨hpl, nds, htree, hnames⟩ := ih st1 st' hlen1 h
      subst hst1
      constructor
      · rw [hpl]
        show pyInsert st.playlists (recordbox_idx st none) p ++ rest =
          st.playlists ++ p :: rest
        show pyInsert st.playlists st.playlists_tree.length p ++ rest =
          st.playlists ++ p :: rest
        rw [← hlen, pyInsert_at_length, List.append_assoc, List.singleton_append]
      · refine ⟨recordbox_playlist_node p tracks :: nds, ?_, ?_⟩
        · rw [htree]
          show pyInsert st.playlists_tree st.playlists_tree.length
              (recordbox_playlist_node p tracks) ++ nds =
            st.playlists_tree ++ recordbox_playlist_node p tracks :: nds
          rw [pyInsert_at_length, List.append_assoc, List.singleton_append]
        · rw [List.map_cons, List.map_cons, hnames, recordbox_node_name]

/-- C5: a RecordBox `add_playlist_to_tree` call with `index=None` puts
the new node at the current end of the tree fragment, and
`add_playlists_to_tree` makes the given playlists appear after all
pre-existing ones, in the order given, in both representations. -/
theorem c5_recordbox_append (st : RecordBoxState) (p : Playlist)
    (st' : RecordBoxState) (stq stq' : RecordBoxState) (ps : List Playlist)
    (h1 : RecordBoxParser.add_playlist_to_tree st p none = .ok st')
    (hlen : stq.playlists.length = stq.playlists_tree.length)
    (h2 : Parser.add_playlists_to_tree stq ps = (stq', none)) :
    (∃ nd, st'.playlists_tree = st.playlists_tree ++ [nd] ∧
      nd.getAttr "Name" = some p.name) ∧
    stq'.playlists = stq.playlists ++ ps ∧
    (∃ nds, stq'.playlists_tree = stq.playlists_tree ++ nds ∧
      nds.map (fun nd => nd.getAttr "Name") =
        ps.map (fun q => some q.name)) := by
  obtain ⟨hpl, nds, htree, hnames⟩ := add_playlists_spec ps stq stq' hlen h2
  obtain ⟨tracks, htr, hst'⟩ := (rb_add_ok_iff st p none st').mp h1
  subst hst'
  refine ⟨⟨recordbox_playlist_node p tracks, ?_, recordbox_node_name p tracks⟩,
    hpl, nds, htree, hnames⟩
  show pyInsert st.playlists_tree st.playlists_tree.length
      (recordbox_playlist_node p tracks) = _
  rw [pyInsert_at_length]

theorem c5_recordbox_append_witness :
    RecordBoxParser.add_playlist_to_tree stR1 exHouse none = .ok stR1' ∧
    stR1.playlists.length = stR1.playlists_tree.length ∧
    Parser.add_playlists_to_tree stR1 [exHouse] = (stR1', none) ∧
    ((∃ nd, stR1'.playlists_tree = stR1.playlists_tree ++ [nd] ∧
        nd.getAttr "Name" = some exHouse.name) ∧
     stR1'.playlists = stR1.playlists ++ [exHouse] ∧
     (∃ nds, stR1'.playlists_tree = stR1.playlists_tree ++ nds ∧
        nds.map (fun nd => nd.getAttr "Name") =
          [exHouse].map (fun q => some q.name))) :=
  ⟨rfl, rfl, rfl,
    c5_recordbox_append stR1 exHouse stR1' stR1 stR1' [exHouse] rfl rfl rfl⟩

def stC6' : RecordBoxState :=
  { songs := [exRS], songs_tree := exCollectionTree,
    playlists := [exPl],
    playlists_tree := [recordbox_playlist_node exPl []] }

/-- C6 counterexample: inserting with explicit index 5 into a RecordBox
parser holding no playlists succeeds, but the node lands at position 0
(the only position of a one-element fragment), not at position 5 —
sequence insertion clamps the index to the length. -/
theorem c6_counterexample :
    RecordBoxParser.add_playlist_to_tree stC3 exPl (some 5) = .ok stC6' ∧
    stC6'.playlists_tree.length = 1 ∧
    stC6'.playlists_tree.get? 5 = none ∧
    stC6'.playlists_tree.get? 0 = some (recordbox_playlist_node exPl []) ∧
    stC6'.playlists.get? 5 = none ∧
    stC6'.playlists.get? 0 = some exPl :=
  ⟨rfl, rfl, rfl, rfl, rfl, rfl⟩

/-- C6 amended: a successful RecordBox `add_playlist_to_tree` with an
explicit index `i` inserts at position `min i (current length)` in the
tree fragment and in the in-memory sequence: an index at most the length
is used exactly, a larger index is clamped to the end by list
insertion. -/
theorem c6_explicit_index_clamped (st : RecordBoxState) (p : Playlist)
    (i : Nat) (st' : RecordBoxState)
    (h : RecordBoxParser.add_playlist_to_tree st p (some i) = .ok st') :
    ∃ tracks, recordbox_track_nodes p.songs st = .ok tracks ∧
      st'.playlists_tree =
        st.playlists_tree.take (min i st.playlists_tree.length) ++
          recordbox_playlist_node p tracks ::
            st.playlists_tree.drop (min i st.playlists_tree.length) ∧
      st'.playlists =
        st.playlists.take (min i st.playlists.length) ++
          p :: st.playlists.drop (min i st.playlists.length) := by
  obtain ⟨tracks, htr, hst'⟩ := (rb_add_ok_iff st p (some i) st').mp h
  subst hst'
  refine ⟨tracks, htr, ?_, ?_⟩
  · show pyInsert st.playlists_tree i (recordbox_playlist_node p tracks) = _
    rw [pyInsert_eq_min]
  · show pyInsert st.playlists i p = _
    rw [pyInsert_eq_min]

theorem c6_explicit_index_clamped_witness :
    RecordBoxParser.add_playlist_to_tree stC3 exPl (some 5) = .ok stC6' ∧
    (∃ tracks, recordbox_track_nodes exPl.songs stC3 = .ok tracks ∧
      stC6'.playlists_tree =
        stC3.playlists_tree.take (min 5 stC3.playlists_tree.length) ++
          recordbox_playlist_node exPl tracks ::
            stC3.playlists_tree.drop (min 5 stC3.playlists_tree.length) ∧
      stC6'.playlists =
        stC3.playlists.take (min 5 stC3.playlists.length) ++
          exPl :: stC3.playlists.drop (min 5 stC3.playlists.length)) :=
  ⟨rfl, c6_explicit_index_clamped stC3 exPl 5 stC6' rfl⟩

def plX : Playlist :=
  { name := "P", songs := [Song.record exRS] }

/-- C7 counterexample: a Traktor parser whose collection is empty accepts
a playlist referencing a song, so at the moment the playlist is attached
its referenced song is not an element of the parser's (empty) songs set —
membership is never checked. -/
theorem c7_counterexample :
    (TraktorParser.add_playlist_to_tree stT0 plX none "u").playlists = [plX] ∧
    (TraktorParser.add_playlist_to_tree stT0 plX none "u").songs = [] ∧
    ¬ (∀ q ∈ (TraktorParser.add_playlist_to_tree stT0 plX none "u").playlists,
        ∀ s ∈ q.songs,
          s ∈ (TraktorParser.add_playlist_to_tree stT0 plX none "u").songs.map
            Song.traktor) :=
  ⟨rfl, rfl, by decide⟩

/-- C7 amended: insertion never creates songs — neither parser's
`add_playlist_to_tree` touches the songs list or the songs tree — and
the only membership guarantee is that a successful RecordBox insertion
certifies a path-equal counterpart in the collection for every
Traktor-variant song of the playlist; membership of the referenced song
objects themselves is not ensured. -/
theorem c7_insertion_never_creates_songs (stT : TraktorState) (p : Playlist)
    (oi : Option Nat) (u : String) (stR : RecordBoxState) (q : Playlist)
    (oj : Option Nat) (stR' : RecordBoxState)
    (h : RecordBoxParser.add_playlist_to_tree stR q oj = .ok stR') :
    (TraktorParser.add_playlist_to_tree stT p oi u).songs = stT.songs ∧
    (TraktorParser.add_playlist_to_tree stT p oi u).songs_tree = stT.songs_tree ∧
    stR'.songs = stR.songs ∧ stR'.songs_tree = stR.songs_tree ∧
    ∀ s ∈ q.songs, ∀ ts, s = Song.traktor ts →
      ∃ r ∈ stR.songs, r.path = ts.path := by
  obtain ⟨tracks, htr, hst⟩ := (rb_add_ok_iff stR q oj stR').mp h
  subst hst
  exact ⟨rfl, rfl, rfl, rfl, track_nodes_resolves stR q.songs tracks htr⟩

theorem c7_insertion_never_creates_songs_witness :
    RecordBoxParser.add_playlist_to_tree stR1 exHouse none = .ok stR1' ∧
    ((TraktorParser.add_playlist_to_tree stT0 plX none "u").songs = stT0.songs ∧
     (TraktorParser.add_playlist_to_tree stT0 plX none "u").songs_tree =
       stT0.songs_tree ∧
     stR1'.songs = stR1.songs ∧ stR1'.songs_tree = stR1.songs_tree ∧
     ∀ s ∈ exHouse.songs, ∀ ts, s = Song.traktor ts →
       ∃ r ∈ stR1.songs, r.path = ts.path) :=
  ⟨rfl, c7_insertion_never_creates_songs stT0 plX none "u" stR1 exHouse none
    stR1' rfl⟩

/-- C9: every successful `add_playlist_to_tree` call (always on a Traktor
parser, on success on a RecordBox parser) leaves the songs section
(`songs` and `songs_tree`) unchanged and turns the playlists fragment
and the in-memory sequence into the old sequence with a single new
element spliced in at one position — so every pre-existing playlist node
keeps its content and the relative order of all pre-existing playlists
is unchanged. -/
theorem c9_frame_preservation (stT : TraktorState) (p : Playlist)
    (oi : Option Nat) (u : String) (stR : RecordBoxState) (q : Playlist)
    (oj : Option Nat) (stR' : RecordBoxState)
    (h : RecordBoxParser.add_playlist_to_tree stR q oj = .ok stR') :
    (TraktorParser.add_playlist_to_tree stT p oi u).songs = stT.songs ∧
    (TraktorParser.add_playlist_to_tree stT p oi u).songs_tree = stT.songs_tree ∧
    (∃ i nd, i ≤ stT.playlists_tree.length ∧
      (TraktorParser.add_playlist_to_tree stT p oi u).playlists_tree =
        stT.playlists_tree.take i ++ nd :: stT.playlists_tree.drop i) ∧
    (∃ i, i ≤ stT.playlists.length ∧
      (TraktorParser.add_playlist_to_tree stT p oi u).playlists =
        stT.playlists.take i ++ p :: stT.playlists.drop i) ∧
    stR'.songs = stR.songs ∧ stR'.songs_tree = stR.songs_tree ∧
    (∃ i nd, i ≤ stR.playlists_tree.length ∧
      stR'.playlists_tree =
        stR.playlists_tree.take i ++ nd :: stR.playlists_tree.drop i) ∧
    (∃ i, i ≤ stR.playlists.length ∧
      stR'.playlists = stR.playlists.take i ++ q :: stR.playlists.drop i) := by
  obtain ⟨tracks, htr, hst⟩ := (rb_add_ok_iff stR q oj stR').mp h
  subst hst
  refine ⟨rfl, rfl, ?_, ?_, rfl, rfl, ?_, ?_⟩
  · refine ⟨min (traktor_idx stT oi) stT.playlists_tree.length,
      traktor_playlist_node p u, Nat.min_le_right _ _, ?_⟩
    show pyInsert stT.playlists_tree (traktor_idx stT oi)
      (traktor_playlist_node p u) = _
    rw [pyInsert_eq_min]
  · refine ⟨min (traktor_idx stT oi) stT.playlists.length,
      Nat.min_le_right _ _, ?_⟩
    show pyInsert stT.playlists (traktor_idx stT oi) p = _
    rw [pyInsert_eq_min]
  · refine ⟨min (recordbox_idx stR oj) stR.playlists_tree.length,
      recordbox_playlist_node q tracks, Nat.min_le_right _ _, ?_⟩
    show pyInsert stR.playlists_tree (recordbox_idx stR oj)
      (recordbox_playlist_node q tracks) = _
    rw [pyInsert_eq_min]
  · refine ⟨min (recordbox_idx stR oj) stR.playlists.length,
      Nat.min_le_right _ _, ?_⟩
    show pyInsert stR.playlists (recordbox_idx stR oj) q = _
    rw [pyInsert_eq_min]

theorem c9_frame_preservation_witness :
    RecordBoxParser.add_playlist_to_tree stR1 exHouse none = .ok stR1' ∧
    ((TraktorParser.add_playlist_to_tree stT1 exPl none "u").songs =
       stT1.songs ∧
     (TraktorParser.add_playlist_to_tree stT1 exPl none "u").songs_tree =
       stT1.songs_tree ∧
     (∃ i nd, i ≤ stT1.playlists_tree.length ∧
       (TraktorParser.add_playlist_to_tree stT1 exPl none "u").playlists_tree =
         stT1.playlists_tree.take i ++ nd :: stT1.playlists_tree.drop i) ∧
     (∃ i, i ≤ stT1.playlists.length ∧
       (TraktorParser.add_playlist_to_tree stT1 exPl none "u").playlists =
         stT1.playlists.take i ++ exPl :: stT1.playlists.drop i) ∧
     stR1'.songs = stR1.songs ∧ stR1'.songs_tree = stR1.songs_tree ∧
     (∃ i nd, i ≤ stR1.playlists_tree.length ∧
       stR1'.playlists_tree =
         stR1.playlists_tree.take i ++ nd :: stR1.playlists_tree.drop i) ∧
     (∃ i, i ≤ stR1.playlists.length ∧
       stR1'.playlists =
         stR1.playlists.take i ++ exHouse :: stR1.playlists.drop i)) :=
  ⟨rfl, c9_frame_preservation stT1 exPl none "u" stR1 exHouse none stR1' rfl⟩

def fsC10 : FileSys := fun q =>
  if q = "orig" then some "old" else if q = "other" then some "D" else none

def fsC10' : FileSys :=
  fs_write (fs_write fsC10 ("orig" ++ ".bak") "old") "other" "doc"

/-- C10 counterexample: saving to the explicit destination `"other"`
(which exists, content `"D"`) with `backup=True` from a parser loaded
from `"orig"` does not create `"other.bak"`; the backup copies the load
path `"orig"` to `"orig.bak"` instead. -/
theorem c10_counterexample :
    Parser.save_file "orig" "doc" fsC10 (some "other") true = .ok fsC10' ∧
    fsC10 "other" = some "D" ∧
    fsC10' "other.bak" = none ∧
    fsC10' ("orig" ++ ".bak") = some "old" :=
  ⟨rfl, rfl, rfl, rfl⟩

/-- C10 amended: `save_file(p, backup=True)` first copies the parser's
original load file to `load_path + ".bak"` — regardless of the
destination `p` — unconditionally overwriting any prior backup, and then
writes the serialized tree to `p`; when `p` is `None` the destination
defaults to the load path. -/
theorem c10_backup_copies_load_path (fs : FileSys) (sp doc p c : String)
    (h : fs sp = some c) :
    Parser.save_file sp doc fs (some p) true =
      .ok (fs_write (fs_write fs (sp ++ ".bak") c) p doc) ∧
    Parser.save_file sp doc fs none true =
      .ok (fs_write (fs_write fs (sp ++ ".bak") c) sp doc) := by
  refine ⟨?_, ?_⟩ <;> (unfold Parser.save_file; rw [h]; rfl)

theorem c10_backup_copies_load_path_witness :
    fsC10 "orig" = some "old" ∧
    (Parser.save_file "orig" "doc" fsC10 (some "other") true =
      .ok (fs_write (fs_write fsC10 ("orig" ++ ".bak") "old") "other" "doc") ∧
     Parser.save_file "orig" "doc" fsC10 none true =
      .ok (fs_write (fs_write fsC10 ("orig" ++ ".bak") "old") "orig" "doc")) :=
  ⟨rfl, c10_backup_copies_load_path fsC10 "orig" "doc" "other" "old" rfl⟩
